import Mathlib

/-!
Verification development for the county-mc-countface image-analysis pipeline
(`src/image_processing.py` and `src/pipeline.py`).

Grayscale images are embedded as lists of rows of natural-number pixel values
(uint8 samples hold values in [0,255]); annotated colour images as lists of
rows of RGB triples.  The OpenCV primitives the source calls
(`cv2.threshold`, `cv2.convertScaleAbs`, `cv2.subtract`, `cv2.normalize`,
`cv2.GaussianBlur`, `cv2.morphologyEx`, `cv2.connectedComponentsWithStats`,
`cv2.rectangle`, `cv2.cvtColor`) are embedded with exact rational arithmetic
followed by OpenCV's round-half-to-even and saturation to [0,255].
Failures (OpenCV assertion errors, Python `ValueError`) are embedded with
`Except`.
-/

namespace CountyMC

/-- A grayscale image: a list of rows, each row a list of pixel intensities. -/
abbrev Image := List (List ℕ)

/-- A 3-channel (BGR) image: rows of colour triples. -/
abbrev ColorImage := List (List (ℕ × ℕ × ℕ))

/-- Pixel accessor; out-of-range coordinates read as 0. -/
def pixel (img : Image) (y x : ℕ) : ℕ := (img.getD y []).getD x 0

/-- Colour pixel accessor; out-of-range coordinates read as black. -/
def colorPixel (img : ColorImage) (y x : ℕ) : ℕ × ℕ × ℕ :=
  (img.getD y []).getD x (0, 0, 0)

/-- Image height (number of rows). -/
def height (img : Image) : ℕ := img.length

/-- Image width (length of the first row; source images are rectangular). -/
def width (img : Image) : ℕ := (img.headD []).length

/-- Round half to even (OpenCV `cvRound` semantics). -/
def rne (q : ℚ) : ℤ :=
  let f := ⌊q⌋
  if q - f < 1/2 then f
  else if q - f > 1/2 then f + 1
  else if f % 2 = 0 then f else f + 1

/-- `saturate_cast<uchar>`: clamp an integer into [0, 255]. -/
def sat255 (z : ℤ) : ℕ := (min 255 (max 0 z)).toNat

/-- `cv2.threshold(img, t, 255, THRESH_BINARY)`: a pixel strictly greater
than the threshold becomes 255, every other pixel becomes 0 (OpenCV's
`THRESH_BINARY` compares with `>`). -/
def cvThreshold (t : ℕ) (img : Image) : Image :=
  img.map (List.map (fun p => if t < p then 255 else 0))

/-- `cv2.convertScaleAbs(img, alpha=a, beta=b)`: per pixel
`saturate_cast<uchar>(round(|a*p + b|))`. -/
def convertScaleAbs (a b : ℚ) (img : Image) : Image :=
  img.map (List.map (fun (p : ℕ) => sat255 (rne |a * (p : ℚ) + b|)))

/-- `adjust_contrast(image, alpha)` (src/image_processing.py:70-81):
`cv2.convertScaleAbs(image, alpha=alpha, beta=0)`. -/
def adjust_contrast (img : Image) (alpha : ℚ) : Image :=
  convertScaleAbs alpha 0 img

/-- `cv2.subtract(a, b)` on uint8: per-pixel saturating subtraction
(truncated at 0). -/
def cvSubtract (a b : Image) : Image :=
  List.zipWith (List.zipWith (fun p q => p - q)) a b

/-- All pixel values of an image, row-major. -/
def pixList (img : Image) : List ℕ := img.flatten

/-- Minimum pixel value (0 for an empty image). -/
def minPix (img : Image) : ℕ :=
  match pixList img with
  | [] => 0
  | p :: ps => ps.foldl min p

/-- Maximum pixel value (0 for an empty image). -/
def maxPix (img : Image) : ℕ :=
  match pixList img with
  | [] => 0
  | p :: ps => ps.foldl max p

/-- `cv2.normalize(img, None, 0, 255, NORM_MINMAX)`: linear rescale so the
minimum maps to 0 and the maximum to 255; when all pixels are equal OpenCV
uses scale 0 and shift 0, producing an all-zero image. -/
def normalizeMinMax (img : Image) : Image :=
  let lo := minPix img
  let hi := maxPix img
  if lo < hi then
    img.map (List.map (fun (p : ℕ) => sat255 (rne (((p : ℚ) - lo) * 255 / ((hi : ℚ) - lo)))))
  else
    img.map (List.map (fun _ => 0))

/-- OpenCV error kinds the embedded code can raise: `cv2.error` for failed
OpenCV assertions, `ValueError` for Python-level unpacking failures. -/
inductive PyError where
  | cv2error
  | valueError
deriving DecidableEq

/-- `BORDER_REFLECT_101` index folding (edge pixel not duplicated):
`... 2 1 | 0 1 2 ... n-1 | n-2 n-3 ...`. -/
def reflect101 (n : ℕ) (i : ℤ) : ℕ :=
  if n ≤ 1 then 0
  else
    let p : ℤ := 2 * n - 2
    let r := (i % p).toNat
    if r < n then r else 2 * n - 2 - r

/-- The 1-D Gaussian coefficients `cv2.getGaussianKernel` uses for
`sigma = 0`: for kernel sizes 1/3/5/7 OpenCV's fixed small-kernel table.
For larger odd sizes OpenCV evaluates floating-point exponentials; those
coefficients are not exactly representable, and no theorem below evaluates
a blur of size ≥ 9, so the normalized binomial row stands in for them. -/
def gaussKernelTab (k : ℕ) : List ℚ :=
  match k with
  | 1 => [1]
  | 3 => [1/4, 1/2, 1/4]
  | 5 => [1/16, 1/4, 3/8, 1/4, 1/16]
  | 7 => [1/32, 7/64, 7/32, 9/32, 7/32, 7/64, 1/32]
  | _ => (List.range k).map (fun i => (Nat.choose (k - 1) i : ℚ) / 2 ^ (k - 1))

/-- Exact value of the separable Gaussian convolution at one pixel, with
reflect-101 border handling. -/
def blurAt (img : Image) (k : ℕ) (y x : ℕ) : ℚ :=
  let ker := gaussKernelTab k
  let r : ℤ := ((k - 1) / 2 : ℕ)
  (ker.enum.map (fun jk =>
    jk.2 * (ker.enum.map (fun ik =>
      ik.2 * (pixel img (reflect101 (height img) ((y : ℤ) + jk.1 - r))
                        (reflect101 (width img) ((x : ℤ) + ik.1 - r)) : ℚ))).sum)).sum

/-- `cv2.GaussianBlur(img, (k, k), 0)`: OpenCV asserts the kernel size is a
positive odd integer (`cv2.error` otherwise), then applies the separable
Gaussian filter, rounding and saturating each output sample. -/
def gaussianBlur (k : ℕ) (img : Image) : Except PyError Image :=
  if k % 2 = 1 then
    .ok ((List.range (height img)).map (fun y =>
      (List.range (width img)).map (fun x => sat255 (rne (blurAt img k y x)))))
  else
    .error .cv2error

/-- Structuring-element column/row offsets for a `k`-wide square kernel with
OpenCV's default centre anchor `k / 2`.  (`morphologyEx` substitutes a 3-wide
kernel when handed an empty one, hence the `k = 0` case.) -/
def morphOffsets (k : ℕ) : List ℤ :=
  let k := if k = 0 then 3 else k
  (List.range k).map (fun i => (i : ℤ) - (k / 2 : ℕ))

/-- In-bounds pixel values inside the structuring-element window centred at
`(x, y)`; out-of-bounds positions are dropped, matching OpenCV's constant
border of `+inf` for erosion / `-inf` for dilation. -/
def morphWindow (img : Image) (k : ℕ) (y x : ℕ) : List ℕ :=
  (morphOffsets k).flatMap (fun dy =>
    (morphOffsets k).filterMap (fun dx =>
      let ny := (y : ℤ) + dy
      let nx := (x : ℤ) + dx
      if 0 ≤ ny ∧ 0 ≤ nx ∧ ny < height img ∧ nx < width img then
        some (pixel img ny.toNat nx.toNat)
      else
        none))

/-- `cv2.erode` with a `k×k` all-ones kernel: windowed minimum. -/
def erode (k : ℕ) (img : Image) : Image :=
  (List.range (height img)).map (fun y =>
    (List.range (width img)).map (fun x =>
      (morphWindow img k y x).foldl min (pixel img y x)))

/-- `cv2.dilate` with a `k×k` all-ones kernel: windowed maximum. -/
def dilate (k : ℕ) (img : Image) : Image :=
  (List.range (height img)).map (fun y =>
    (List.range (width img)).map (fun x =>
      (morphWindow img k y x).foldl max (pixel img y x)))

/-- `cv2.morphologyEx(img, MORPH_OPEN, np.ones((k, k)))`: erosion followed
by dilation. -/
def morphOpen (k : ℕ) (img : Image) : Image := dilate k (erode k img)

/-- The `filter_params` dictionary consumed by `apply_filters`: each of the
three recognized keys is either present with a value or absent. -/
structure FilterParams where
  gaussian_blur : Option ℕ
  threshold : Option ℕ
  morph_open : Option ℕ

/-- `apply_filters(image, filter_params)` (src/image_processing.py:44-67):
blur if the `gaussian_blur` key is present, then binary-threshold if the
`threshold` key is present, then morphologically open if the `morph_open`
key is present, each step consuming the previous step's output. -/
def apply_filters (img : Image) (fp : FilterParams) : Except PyError Image := do
  let i1 ← match fp.gaussian_blur with
    | some k => gaussianBlur k img
    | none => .ok img
  let i2 := match fp.threshold with
    | some t => cvThreshold t i1
    | none => i1
  let i3 := match fp.morph_open with
    | some k => morphOpen k i2
    | none => i2
  return i3

/-- `correct_illumination(image, blur_kernel_size, brightness_offset=30)`
(src/image_processing.py:19-40): background estimate by Gaussian blur,
saturating subtraction, min-max normalization to [0,255], then
`convertScaleAbs(·, alpha=1, beta=brightness_offset)`.  A caller that omits
`brightness_offset` (the `none` argument) gets the Python default 30. -/
def correct_illumination (img : Image) (blur_kernel_size : ℕ)
    (brightness_offset : Option ℤ) : Except PyError Image := do
  let background ← gaussianBlur blur_kernel_size img
  let corrected := cvSubtract img background
  let normalized := normalizeMinMax corrected
  return convertScaleAbs 1 (brightness_offset.getD 30) normalized

/-- A pixel coordinate `(x, y)`. -/
abbrev Coord := ℕ × ℕ

/-- Is `c` inside the image? -/
def inBounds (img : Image) (c : Coord) : Bool :=
  decide (c.2 < img.length ∧ c.1 < (img.getD c.2 []).length)

/-- Is `c` a foreground (non-zero) pixel? -/
def isFg (img : Image) (c : Coord) : Bool := decide (0 < pixel img c.2 c.1)

/-- Neighbour offsets for 4- or 8-connectivity. -/
def neighborOffsets (conn : ℕ) : List (ℤ × ℤ) :=
  if conn = 8 then
    [(-1, -1), (0, -1), (1, -1), (-1, 0), (1, 0), (-1, 1), (0, 1), (1, 1)]
  else
    [(0, -1), (-1, 0), (1, 0), (0, 1)]

/-- In-bounds foreground neighbours of `c` under the given connectivity. -/
def fgNeighbors (img : Image) (conn : ℕ) (c : Coord) : List Coord :=
  (neighborOffsets conn).filterMap (fun d =>
    let nx := (c.1 : ℤ) + d.1
    let ny := (c.2 : ℤ) + d.2
    if 0 ≤ nx ∧ 0 ≤ ny then
      let n : Coord := (nx.toNat, ny.toNat)
      if inBounds img n ∧ isFg img n then some n else none
    else none)

/-- Fuel-bounded depth-first traversal collecting one connected component in
discovery order. -/
def floodAux (img : Image) (conn : ℕ) :
    ℕ → List Coord → List Coord → List Coord
  | 0, _, visited => visited
  | _ + 1, [], visited => visited
  | fuel + 1, c :: stack, visited =>
    if visited.contains c then floodAux img conn fuel stack visited
    else floodAux img conn fuel (fgNeighbors img conn c ++ stack) (visited ++ [c])

/-- Number of pixel positions of the image. -/
def pixCount (img : Image) : ℕ := (pixList img).length

/-- The connected component of foreground pixel `seed`. -/
def flood (img : Image) (conn : ℕ) (seed : Coord) : List Coord :=
  floodAux img conn (9 * pixCount img + 9) [seed] []

/-- All coordinates of the image in raster (row-major) order. -/
def rasterCoords (img : Image) : List Coord :=
  (List.range img.length).flatMap (fun y =>
    (List.range ((img.getD y []).length)).map (fun x => (x, y)))

/-- Raster scan assigning each yet-unlabelled foreground pixel's component;
components are produced in raster order of their first pixel, matching the
label order `cv2.connectedComponentsWithStats` reports. -/
def componentsAux (img : Image) (conn : ℕ) :
    List Coord → List (List Coord) → List (List Coord)
  | [], acc => acc
  | c :: rest, acc =>
    if isFg img c ∧ ¬ acc.any (·.contains c) then
      componentsAux img conn rest (acc ++ [flood img conn c])
    else
      componentsAux img conn rest acc

/-- The non-background connected components of a binary image, in ascending
label order (labels 1, 2, ...). -/
def components (img : Image) (conn : ℕ) : List (List Coord) :=
  componentsAux img conn (rasterCoords img) []

/-- Per-component row of the `stats`/`centroids` arrays
`cv2.connectedComponentsWithStats` returns: pixel count and real-valued
centroid (mean x, mean y). -/
structure CCStat where
  area : ℕ
  cx : ℚ
  cy : ℚ
deriving DecidableEq

/-- Area and centroid of a set of pixels. -/
def statOf (pix : List Coord) : CCStat :=
  { area := pix.length
    cx := (pix.map (fun c => (c.1 : ℚ))).sum / pix.length
    cy := (pix.map (fun c => (c.2 : ℚ))).sum / pix.length }

/-- Background pixels (label 0). -/
def backgroundPixels (img : Image) : List Coord :=
  (rasterCoords img).filter (fun c => ¬ isFg img c)

/-- The `stats`/`centroids` rows of `cv2.connectedComponentsWithStats`, in
label order: row 0 is the background, rows 1.. the foreground components. -/
def ccStats (img : Image) (conn : ℕ) : List CCStat :=
  statOf (backgroundPixels img) :: (components img conn).map statOf

/-- `cv2.cvtColor(img, COLOR_GRAY2BGR)`: replicate the gray sample into the
three channels. -/
def gray2bgr (img : Image) : ColorImage :=
  img.map (List.map (fun g => (g, g, g)))

/-- Python `int(q)`: truncation toward zero. -/
def pyInt (q : ℚ) : ℤ := if 0 ≤ q then ⌊q⌋ else ⌈q⌉

/-- `cv2.rectangle(img, (cx-1, cy-1), (cx+1, cy+1), (255, 0, 0), -1)`: fill
the 3×3 box centred at `(cx, cy)` (clipped at the image border) with the
marker colour. -/
def drawRect (img : ColorImage) (cx cy : ℤ) : ColorImage :=
  (List.range img.length).map (fun (y : ℕ) =>
    (List.range ((img.getD y []).length)).map (fun (x : ℕ) =>
      if cx - 1 ≤ (x : ℤ) ∧ (x : ℤ) ≤ cx + 1 ∧ cy - 1 ≤ (y : ℤ) ∧ (y : ℤ) ≤ cy + 1 then
        (255, 0, 0)
      else
        colorPixel img y x))

/-- State threaded through `count_dots`' marking loop.  `markers` records the
centre handed to each pair of `cv2.rectangle` calls and `acceptedCentroids`
the real-valued centroid of each accepted blob, in loop (ascending label)
order. -/
structure CountState where
  num_dots : ℕ
  count_image : ColorImage
  original_colored : ColorImage
  markers : List (ℤ × ℤ)
  acceptedCentroids : List (ℚ × ℚ)
deriving DecidableEq

/-- The `for i, stat in enumerate(stats)` loop of `count_dots`
(src/image_processing.py:114-128): skip the background row `i = 0`; accept a
blob iff `area >= size_threshold`; for each accepted blob truncate its
centroid with `int(...)` and draw the marker on both output images. -/
def dotLoop (size_threshold : ℤ) : List (ℕ × CCStat) → CountState → CountState
  | [], s => s
  | (i, stat) :: rest, s =>
    if i = 0 then dotLoop size_threshold rest s
    else if size_threshold ≤ (stat.area : ℤ) then
      let cx := pyInt stat.cx
      let cy := pyInt stat.cy
      dotLoop size_threshold rest
        { num_dots := s.num_dots + 1
          count_image := drawRect s.count_image cx cy
          original_colored := drawRect s.original_colored cx cy
          markers := s.markers ++ [(cx, cy)]
          acceptedCentroids := s.acceptedCentroids ++ [(stat.cx, stat.cy)] }
    else dotLoop size_threshold rest s

/-- The body of `count_dots` once `connectedComponentsWithStats` has
succeeded: re-binarize the processed image at 127, label it, convert both
input images to colour and run the marking loop over the enumerated stats. -/
def countDotsCore (original processed : Image) (size_threshold : ℤ)
    (conn : ℕ) : CountState :=
  let binary := cvThreshold 127 processed
  let stats := ccStats binary conn
  dotLoop size_threshold stats.enum
    { num_dots := 0
      count_image := gray2bgr processed
      original_colored := gray2bgr original
      markers := []
      acceptedCentroids := [] }

/-- `count_dots(original_image, processed_image, size_threshold,
connectivity=4)` (src/image_processing.py:84-130): an omitted `connectivity`
(the `none` argument) gets the Python default 4;
`cv2.connectedComponentsWithStats` asserts `connectivity` is 4 or 8
(`cv2.error` otherwise). -/
def count_dots (original processed : Image) (size_threshold : ℤ)
    (connectivity : Option ℕ) : Except PyError CountState :=
  let conn := connectivity.getD 4
  if conn = 4 ∨ conn = 8 then
    .ok (countDotsCore original processed size_threshold conn)
  else
    .error .cv2error

/-- A dynamically typed Python value, as far as the orchestrator stores one:
an integer count or a colour image.  `count_dots`' return statement builds a
tuple of such values. -/
inductive PyValue where
  | nat (n : ℕ)
  | img (i : ColorImage)
deriving DecidableEq

/-- The tuple built by `return num_dots, count_image, original_colored`
(src/image_processing.py:130): three elements. -/
def countDotsReturn (r : CountState) : List PyValue :=
  [.nat r.num_dots, .img r.count_image, .img r.original_colored]

/-- Python tuple unpacking into four targets: succeeds only on a tuple of
exactly four elements, otherwise raises `ValueError`. -/
def tupleUnpack4 (xs : List PyValue) :
    Except PyError (PyValue × PyValue × PyValue × PyValue) :=
  match xs with
  | [a, b, c, d] => .ok (a, b, c, d)
  | _ => .error .valueError

/-- The orchestrator's mutable state (`ProcessingPipeline.__init__`,
src/pipeline.py:8-19): the six-entry stage dictionary plus `dot_count` and
`centroids`, each initially `None`.  The four fields the dot-counting stage
would assign are typed as raw Python values, since the assignment that would
populate them never executes. -/
structure PipelineState where
  original : Option Image
  corrected : Option Image
  filtered : Option Image
  contrast : Option Image
  dots_counted : Option PyValue
  original_with_dots : Option PyValue
  dot_count : Option PyValue
  centroids : Option PyValue
deriving DecidableEq

/-- A fresh pipeline (`__init__` / `clear_pipeline`). -/
def initState : PipelineState :=
  { original := none, corrected := none, filtered := none, contrast := none
    dots_counted := none, original_with_dots := none
    dot_count := none, centroids := none }

namespace ProcessingPipeline

/-- `ProcessingPipeline.load_image_image` / the assignment performed by
`load_image_filepath` once `load_image` has returned (`cv2.imread` yields an
image, or `None` for an undecodable file). -/
def load_image_image (s : PipelineState) (image : Option Image) : PipelineState :=
  { s with original := image }

/-- `ProcessingPipeline.correct_illumination(blur_kernel_size,
brightness_offset=30)` (src/pipeline.py:39-40): runs the component on the
`original` entry (passing `None` to `cv2.GaussianBlur` raises `cv2.error`)
and stores the result in `corrected` on success; an omitted
`brightness_offset` (the `none` argument) gets the Python default 30. -/
def correct_illumination (s : PipelineState) (blur_kernel_size : ℕ)
    (brightness_offset : Option ℤ) : Except PyError PipelineState :=
  match s.original with
  | none => .error .cv2error
  | some img =>
    (CountyMC.correct_illumination img blur_kernel_size
        (some (brightness_offset.getD 30))).map
      (fun c => { s with corrected := some c })

/-- `ProcessingPipeline.apply_filters(gaussian_blur, threshold, morph_open)`
(src/pipeline.py:42-48): builds a `filter_params` dictionary containing all
three keys and runs the component on the `corrected` entry. -/
def apply_filters (s : PipelineState) (gaussian_blur threshold morph_open : ℕ) :
    Except PyError PipelineState :=
  match s.corrected with
  | none => .error .cv2error
  | some img =>
    (CountyMC.apply_filters img
        ⟨some gaussian_blur, some threshold, some morph_open⟩).map
      (fun f => { s with filtered := some f })

/-- `ProcessingPipeline.adjust_contrast(alpha)` (src/pipeline.py:50-51):
runs the component on the `filtered` entry (which never raises) and stores
the result in `contrast`. -/
def adjust_contrast (s : PipelineState) (alpha : ℚ) : Except PyError PipelineState :=
  match s.filtered with
  | none => .error .cv2error
  | some img => .ok { s with contrast := some (CountyMC.adjust_contrast img alpha) }

/-- `ProcessingPipeline.count_dots(size_threshold, connectivity)`
(src/pipeline.py:53-56): evaluates the component on the `original` and
`contrast` entries, then unpacks its return tuple into the four assignment
targets `self.dot_count, self.images['dots_counted'],
self.images['original_with_dots'], self.centroids`. -/
def count_dots (s : PipelineState) (size_threshold : ℤ) (connectivity : ℕ) :
    Except PyError PipelineState :=
  match s.original, s.contrast with
  | some orig, some con =>
    match CountyMC.count_dots orig con size_threshold (some connectivity) with
    | .error e => .error e
    | .ok r =>
      match tupleUnpack4 (countDotsReturn r) with
      | .error e => .error e
      | .ok (a, b, c, d) =>
        .ok { s with dot_count := some a, dots_counted := some b
                     original_with_dots := some c, centroids := some d }
  | _, _ => .error .cv2error

/-- `ProcessingPipeline.run_pipeline(file_path, ...)` (src/pipeline.py:61-66):
the five stage methods in sequence, each mutating `self` on success; a raised
exception propagates immediately, leaving the mutations already performed in
place.  `loaded` stands for the outcome of `load_image(file_path)`: an I/O
error, or the decoded image (`none` when `cv2.imread` cannot decode the
file).  The result pairs the orchestrator state after the call with
`none` on success or `some (stage index, error)` for the first failing
stage (1 = load, ..., 5 = count dots). -/
def run_pipeline (s : PipelineState) (loaded : Except PyError (Option Image))
    (blur_kernel_size : ℕ) (brightness_offset : ℤ)
    (gaussian_blur threshold morph_open : ℕ) (alpha : ℚ)
    (size_threshold : ℤ) (connectivity : ℕ) :
    PipelineState × Option (ℕ × PyError) :=
  match loaded with
  | .error e => (s, some (1, e))
  | .ok img =>
    let s1 := load_image_image s img
    match correct_illumination s1 blur_kernel_size (some brightness_offset) with
    | .error e => (s1, some (2, e))
    | .ok s2 =>
      match apply_filters s2 gaussian_blur threshold morph_open with
      | .error e => (s2, some (3, e))
      | .ok s3 =>
        match adjust_contrast s3 alpha with
        | .error e => (s3, some (4, e))
        | .ok s4 =>
          match count_dots s4 size_threshold connectivity with
          | .error e => (s4, some (5, e))
          | .ok s5 => (s5, none)

end ProcessingPipeline

/-! ## Supporting lemmas -/

lemma getD_map_zero (f : ℕ → ℕ) (hf : f 0 = 0) (l : List ℕ) (x : ℕ) :
    (l.map f).getD x 0 = f (l.getD x 0) := by
  rw [List.getD_eq_getElem?_getD, List.getD_eq_getElem?_getD, List.getElem?_map]
  cases l[x]? <;> simp [hf]

lemma getD_row_map (f : List ℕ → List ℕ) (hf : f [] = []) (img : Image) (y : ℕ) :
    (img.map f).getD y [] = f (img.getD y []) := by
  rw [List.getD_eq_getElem?_getD, List.getD_eq_getElem?_getD, List.getElem?_map]
  cases img[y]? <;> simp [hf]

lemma pixel_map (f : ℕ → ℕ) (hf : f 0 = 0) (img : Image) (y x : ℕ) :
    pixel (img.map (List.map f)) y x = f (pixel img y x) := by
  unfold pixel
  rw [getD_row_map (List.map f) rfl img y, getD_map_zero f hf]

lemma map_eq_self_of_mem {α : Type} (f : α → α) :
    ∀ l : List α, (∀ p ∈ l, f p = p) → l.map f = l
  | [], _ => rfl
  | a :: l, h => by
    simp only [List.map_cons, List.cons.injEq]
    exact ⟨h a (by simp), map_eq_self_of_mem f l (fun p hp => h p (by simp [hp]))⟩

lemma rne_natCast (n : ℕ) : rne n = n := by
  unfold rne
  have h1 : ⌊(n : ℚ)⌋ = (n : ℤ) := by exact_mod_cast Int.floor_natCast n
  rw [h1]
  norm_num

lemma sat255_natCast (n : ℕ) : sat255 n = min 255 n := by
  unfold sat255
  omega

lemma sat255_of_le {n : ℕ} (h : n ≤ 255) : sat255 n = n := by
  rw [sat255_natCast]
  omega

/-! ## Claim C4: the threshold stage -/

/-- **C4** (corrected).  The claim says a pixel with intensity *greater than
or equal to* the threshold becomes 255; OpenCV's `THRESH_BINARY` in fact
uses a strict comparison.  What holds: when only the `threshold` option is
present the filter chain is exactly the binary threshold, and each output
pixel is 255 iff its input is *strictly greater* than the threshold value,
else 0. -/
theorem claim_C4 (img : Image) (t : ℕ) :
    apply_filters img ⟨none, some t, none⟩ = .ok (cvThreshold t img) ∧
    ∀ y x : ℕ, pixel (cvThreshold t img) y x =
      if t < pixel img y x then 255 else 0 := by
  constructor
  · rfl
  · intro y x
    exact pixel_map (fun p => if t < p then 255 else 0) (by simp) img y x

/-- **C4 counterexample.**  A pixel whose intensity equals the threshold
(127 ≥ 127) is mapped to 0, not to 255 as the claim states. -/
theorem claim_C4_cex :
    127 ≤ pixel [[127]] 0 0 ∧
    apply_filters [[127]] ⟨none, some 127, none⟩ = .ok [[0]] ∧
    pixel (cvThreshold 127 [[127]]) 0 0 = 0 ∧ (0 : ℕ) ≠ 255 := by
  refine ⟨by decide, rfl, by decide, by decide⟩

/-! ## Claim C5: order of the filter chain -/

/-- The blur step of the chain: applied when the option is present, the
identity (modulo the `Except` wrapper) when absent. -/
def blurStage (g : Option ℕ) (img : Image) : Except PyError Image :=
  match g with
  | some k => gaussianBlur k img
  | none => .ok img

/-- The threshold step of the chain: applied when present, identity when
absent. -/
def threshStage (t : Option ℕ) (img : Image) : Image :=
  match t with
  | some v => cvThreshold v img
  | none => img

/-- The morphological-opening step of the chain: applied when present,
identity when absent. -/
def morphStage (m : Option ℕ) (img : Image) : Image :=
  match m with
  | some k => morphOpen k img
  | none => img

/-- **C5** (confirmed).  The filter chain is blur, then threshold, then
opening, in that fixed order, each present stage consuming the previous
stage's output; an absent option leaves the image untouched at that step
(in particular, with no options present the chain is the identity). -/
theorem claim_C5 (img : Image) (g t m : Option ℕ) :
    apply_filters img ⟨g, t, m⟩ =
      (blurStage g img).map (fun i => morphStage m (threshStage t i)) ∧
    apply_filters img ⟨none, none, none⟩ = .ok img := by
  constructor
  · cases g with
    | none => cases t <;> cases m <;> rfl
    | some k =>
      show (gaussianBlur k img).bind _ =
        (gaussianBlur k img).map (fun i => morphStage m (threshStage t i))
      cases gaussianBlur k img <;> cases t <;> cases m <;> rfl
  · rfl

/-! ## Claim C6: contrast adjustment -/

/-- **C6** (confirmed).  On an 8-bit image (every sample ≤ 255), contrast
adjustment with `alpha = 1.0` is the identity; and for every nonnegative
`alpha` (the documented domain — `ContrastParameters` requires a positive
scale factor) each output pixel is `alpha` times the input pixel, rounded
and saturated into [0, 255]. -/
theorem claim_C6 :
    (∀ img : Image, (∀ p ∈ pixList img, p ≤ 255) → adjust_contrast img 1 = img) ∧
    (∀ (img : Image) (a : ℚ), 0 ≤ a → ∀ y x : ℕ,
      pixel (adjust_contrast img a) y x = sat255 (rne (a * pixel img y x))) := by
  constructor
  · intro img h
    unfold adjust_contrast convertScaleAbs
    have hrow : ∀ row ∈ img, row.map (fun (p : ℕ) => sat255 (rne |1 * (p : ℚ) + 0|)) = row := by
      intro row hrow
      apply map_eq_self_of_mem
      intro p hp
      have hp255 : p ≤ 255 := h p (List.mem_flatten.2 ⟨row, hrow, hp⟩)
      have : |1 * (p : ℚ) + 0| = (p : ℚ) := by
        rw [one_mul, add_zero, abs_of_nonneg (Nat.cast_nonneg p)]
      rw [this, rne_natCast, sat255_of_le hp255]
    exact map_eq_self_of_mem _ img hrow
  · intro img a ha y x
    unfold adjust_contrast convertScaleAbs
    have habs : ∀ p : ℕ, |a * (p : ℚ) + 0| = a * (p : ℚ) := fun p => by
      rw [add_zero, abs_of_nonneg (mul_nonneg ha (Nat.cast_nonneg p))]
    have hrne0 : rne (0 : ℚ) = 0 := by simpa using rne_natCast 0
    have h0 : sat255 (rne |a * ((0 : ℕ) : ℚ) + 0|) = 0 := by
      rw [habs 0]
      norm_num [hrne0]
      decide
    have := pixel_map (fun p : ℕ => sat255 (rne |a * (p : ℚ) + 0|)) h0 img y x
    rw [this, habs]

/-- **C6 witness.**  `adjust_contrast` at `alpha = 1` fixes a concrete
8-bit image, and at `alpha = 3/2` the pixel formula evaluates on a concrete
pixel. -/
theorem claim_C6_witness :
    adjust_contrast [[0, 128, 255]] 1 = [[0, 128, 255]] ∧
    pixel (adjust_contrast [[5]] (3/2)) 0 0 = sat255 (rne (3/2 * pixel [[5]] 0 0)) :=
  ⟨claim_C6.1 [[0, 128, 255]] (by decide),
   claim_C6.2 [[5]] (3/2) (by with_unfolding_all decide) 0 0⟩

/-! ## Claim C8: implicit parameter defaults -/

/-- **C8** (corrected).  The claim allows a single implicit default
(`brightness_offset = 30` in illumination correction).  The code has that
default — at both the component and the orchestrator level — but the
dot-counting component carries a second one: an omitted `connectivity`
silently becomes 4. -/
theorem claim_C8 :
    (∀ (img : Image) (k : ℕ),
      correct_illumination img k none = correct_illumination img k (some 30)) ∧
    (∀ (s : PipelineState) (k : ℕ),
      ProcessingPipeline.correct_illumination s k none =
        ProcessingPipeline.correct_illumination s k (some 30)) ∧
    (∀ (o p : Image) (st : ℤ),
      count_dots o p st none = count_dots o p st (some 4)) :=
  ⟨fun _ _ => rfl, fun _ _ => rfl, fun _ _ _ => rfl⟩

/-- **C8 counterexample.**  Calling the dot-counting component without
supplying `connectivity` does not fail — it substitutes the implicit
default 4 — so `brightness_offset` is not the single defaulted pipeline
parameter. -/
theorem claim_C8_cex :
    count_dots [[255]] [[255]] 0 none = .ok (countDotsCore [[255]] [[255]] 0 4) ∧
    count_dots [[255]] [[255]] 0 none ≠ .error .cv2error :=
  ⟨rfl, fun h => Except.noConfusion h⟩

/-! ## The marking loop of `count_dots` -/

/-- The loop's acceptance test: not the background row, and area at least
the size threshold. -/
def accepts (st : ℤ) (p : ℕ × CCStat) : Bool :=
  p.1 != 0 && decide (st ≤ (p.2.area : ℤ))

lemma dotLoop_spec (st : ℤ) :
    ∀ (l : List (ℕ × CCStat)) (s : CountState),
      (dotLoop st l s).num_dots = s.num_dots + (l.filter (accepts st)).length ∧
      (dotLoop st l s).acceptedCentroids
        = s.acceptedCentroids ++ (l.filter (accepts st)).map (fun p => (p.2.cx, p.2.cy)) ∧
      (dotLoop st l s).markers
        = s.markers ++ (l.filter (accepts st)).map (fun p => (pyInt p.2.cx, pyInt p.2.cy))
  | [], s => by simp [dotLoop]
  | (i, stat) :: rest, s => by
    by_cases hi : i = 0
    · subst hi
      have h := dotLoop_spec st rest s
      simpa [dotLoop, List.filter_cons, accepts] using h
    · by_cases hA : st ≤ (stat.area : ℤ)
      · have h := dotLoop_spec st rest
          { num_dots := s.num_dots + 1
            count_image := drawRect s.count_image (pyInt stat.cx) (pyInt stat.cy)
            original_colored := drawRect s.original_colored (pyInt stat.cx) (pyInt stat.cy)
            markers := s.markers ++ [(pyInt stat.cx, pyInt stat.cy)]
            acceptedCentroids := s.acceptedCentroids ++ [(stat.cx, stat.cy)] }
        obtain ⟨h1, h2, h3⟩ := h
        refine ⟨?_, ?_, ?_⟩ <;>
          (simp [dotLoop, hi, hA, h1, h2, h3, List.filter_cons, accepts]; try omega)
      · have h := dotLoop_spec st rest s
        obtain ⟨h1, h2, h3⟩ := h
        refine ⟨?_, ?_, ?_⟩ <;>
          simp [dotLoop, hi, hA, h1, h2, h3, List.filter_cons, accepts]

lemma filter_accepts_enumFrom (st : ℤ) :
    ∀ (l : List CCStat) (n : ℕ), 0 < n →
      ((List.enumFrom n l).filter (accepts st)).map Prod.snd
        = l.filter (fun b => decide (st ≤ (b.area : ℤ)))
  | [], _, _ => rfl
  | b :: l, n, hn => by
    have h := filter_accepts_enumFrom st l (n + 1) (by omega)
    have hacc : accepts st (n, b) = decide (st ≤ (b.area : ℤ)) := by
      simp [accepts, Nat.pos_iff_ne_zero.mp hn]
    show ((List.enumFrom n (b :: l)).filter (accepts st)).map Prod.snd = _
    rw [List.enumFrom, List.filter_cons, List.filter_cons, hacc]
    by_cases hA : st ≤ (b.area : ℤ) <;> simp [hA, h]

/-- The stats rows in label order, with the background row 0 in front. -/
lemma ccStats_enum (img : Image) (conn : ℕ) :
    (ccStats img conn).enum
      = (0, statOf (backgroundPixels img))
          :: List.enumFrom 1 ((components img conn).map statOf) := rfl

lemma countDotsCore_accepted (o p : Image) (st : ℤ) (c : ℕ) :
    (countDotsCore o p st c).acceptedCentroids
      = (((components (cvThreshold 127 p) c).map statOf).filter
          (fun b => decide (st ≤ (b.area : ℤ)))).map (fun b => (b.cx, b.cy)) ∧
    (countDotsCore o p st c).num_dots
      = (((components (cvThreshold 127 p) c).map statOf).filter
          (fun b => decide (st ≤ (b.area : ℤ)))).length := by
  obtain ⟨h1, h2, h3⟩ := dotLoop_spec st (ccStats (cvThreshold 127 p) c).enum
    { num_dots := 0
      count_image := gray2bgr p
      original_colored := gray2bgr o
      markers := []
      acceptedCentroids := [] }
  have hfil : (ccStats (cvThreshold 127 p) c).enum.filter (accepts st)
      = (List.enumFrom 1 ((components (cvThreshold 127 p) c).map statOf)).filter
          (accepts st) := by
    rw [ccStats_enum, List.filter_cons]
    simp [accepts]
  have hsnd := filter_accepts_enumFrom st
    ((components (cvThreshold 127 p) c).map statOf) 1 (by omega)
  constructor
  · show (countDotsCore o p st c).acceptedCentroids = _
    rw [show (countDotsCore o p st c).acceptedCentroids
        = (dotLoop st (ccStats (cvThreshold 127 p) c).enum
            { num_dots := 0, count_image := gray2bgr p, original_colored := gray2bgr o
              markers := [], acceptedCentroids := [] }).acceptedCentroids from rfl, h2]
    rw [hfil]
    rw [show (fun (p : ℕ × CCStat) => (p.2.cx, p.2.cy))
        = (fun (b : CCStat) => (b.cx, b.cy)) ∘ Prod.snd from rfl]
    rw [← List.map_map, hsnd]
    simp
  · show (countDotsCore o p st c).num_dots = _
    rw [show (countDotsCore o p st c).num_dots
        = (dotLoop st (ccStats (cvThreshold 127 p) c).enum
            { num_dots := 0, count_image := gray2bgr p, original_colored := gray2bgr o
              markers := [], acceptedCentroids := [] }).num_dots from rfl, h1]
    rw [hfil, ← hsnd, List.length_map]
    simp

/-! ## Claim C2: count equals number of centroids -/

/-- **C2** (confirmed).  Whenever `count_dots` returns, the count equals the
number of accepted-blob centroids, and that centroid sequence is a
subsequence of all the labeling's centroids taken in ascending label order
(so it is itself ordered by ascending label id). -/
theorem claim_C2 (o p : Image) (st : ℤ) (conn : Option ℕ) (r : CountState)
    (h : count_dots o p st conn = .ok r) :
    r.num_dots = r.acceptedCentroids.length ∧
    r.acceptedCentroids.Sublist
      ((ccStats (cvThreshold 127 p) (conn.getD 4)).map (fun b => (b.cx, b.cy))) := by
  rw [show count_dots o p st conn
      = (if conn.getD 4 = 4 ∨ conn.getD 4 = 8
          then Except.ok (countDotsCore o p st (conn.getD 4))
          else Except.error PyError.cv2error) from rfl] at h
  split at h
  case isFalse => exact absurd h (fun h => Except.noConfusion h)
  case isTrue hc =>
    have hr : r = countDotsCore o p st (conn.getD 4) := by
      cases h
      rfl
    subst hr
    obtain ⟨hacc, hnum⟩ := countDotsCore_accepted o p st (conn.getD 4)
    constructor
    · rw [hacc, hnum, List.length_map]
    · obtain ⟨_, h2, _⟩ := dotLoop_spec st (ccStats (cvThreshold 127 p) (conn.getD 4)).enum
        { num_dots := 0, count_image := gray2bgr p, original_colored := gray2bgr o
          markers := [], acceptedCentroids := [] }
      rw [show (countDotsCore o p st (conn.getD 4)).acceptedCentroids
          = (dotLoop st (ccStats (cvThreshold 127 p) (conn.getD 4)).enum
              { num_dots := 0, count_image := gray2bgr p, original_colored := gray2bgr o
                markers := [], acceptedCentroids := [] }).acceptedCentroids from rfl, h2]
      simp only [List.nil_append]
      have hsub : ((ccStats (cvThreshold 127 p) (conn.getD 4)).enum.filter
          (accepts st)).Sublist ((ccStats (cvThreshold 127 p) (conn.getD 4)).enum) :=
        List.filter_sublist _
      have := hsub.map (fun (q : ℕ × CCStat) => (q.2.cx, q.2.cy))
      refine this.trans ?_
      rw [show (fun (q : ℕ × CCStat) => (q.2.cx, q.2.cy))
          = (fun (b : CCStat) => (b.cx, b.cy)) ∘ Prod.snd from rfl]
      rw [← List.map_map]
      rw [show (ccStats (cvThreshold 127 p) (conn.getD 4)).enum.map Prod.snd
          = ccStats (cvThreshold 127 p) (conn.getD 4) from
        List.enumFrom_map_snd 0 _]

/-- **C2 witness.**  A concrete successful invocation: one accepted blob,
count 1, centroid list of length 1. -/
theorem claim_C2_witness :
    (countDotsCore [[0, 255]] [[0, 255]] 0 4).num_dots
      = (countDotsCore [[0, 255]] [[0, 255]] 0 4).acceptedCentroids.length :=
  (claim_C2 [[0, 255]] [[0, 255]] 0 (some 4)
    (countDotsCore [[0, 255]] [[0, 255]] 0 4) rfl).1

/-! ## Claim C7: inclusive size threshold -/

/-- **C7** (confirmed).  For any nonnegative size threshold, the accepted
blobs are exactly the non-background components whose area is at least the
threshold (inclusive comparison), in label order; the count is their
number. -/
theorem claim_C7 (o p : Image) (st : ℤ) (conn : Option ℕ) (r : CountState)
    (_hst : 0 ≤ st) (h : count_dots o p st conn = .ok r) :
    r.acceptedCentroids
      = (((components (cvThreshold 127 p) (conn.getD 4)).map statOf).filter
          (fun b => decide (st ≤ (b.area : ℤ)))).map (fun b => (b.cx, b.cy)) ∧
    r.num_dots
      = (((components (cvThreshold 127 p) (conn.getD 4)).map statOf).filter
          (fun b => decide (st ≤ (b.area : ℤ)))).length := by
  rw [show count_dots o p st conn
      = (if conn.getD 4 = 4 ∨ conn.getD 4 = 8
          then Except.ok (countDotsCore o p st (conn.getD 4))
          else Except.error PyError.cv2error) from rfl] at h
  split at h
  case isFalse => exact absurd h (fun h => Except.noConfusion h)
  case isTrue hc =>
    have hr : r = countDotsCore o p st (conn.getD 4) := by
      cases h
      rfl
    subst hr
    exact countDotsCore_accepted o p st (conn.getD 4)

/-- **C7 witness.**  With `size_threshold = 2`, a blob of area exactly 2 is
accepted and a blob of area 1 (= threshold − 1) is rejected: the run counts
exactly one dot. -/
theorem claim_C7_witness :
    (0 : ℤ) ≤ 2 ∧
    (countDotsCore [[255, 255, 0, 255]] [[255, 255, 0, 255]] 2 4).num_dots
      = (((components (cvThreshold 127 [[255, 255, 0, 255]]) 4).map statOf).filter
          (fun b => decide ((2 : ℤ) ≤ (b.area : ℤ)))).length ∧
    (countDotsCore [[255, 255, 0, 255]] [[255, 255, 0, 255]] 2 4).num_dots = 1 ∧
    ((components (cvThreshold 127 [[255, 255, 0, 255]]) 4).map
      (fun pix => (statOf pix).area)) = [2, 1] :=
  ⟨by decide,
   (claim_C7 [[255, 255, 0, 255]] [[255, 255, 0, 255]] 2 (some 4)
     (countDotsCore [[255, 255, 0, 255]] [[255, 255, 0, 255]] 2 4)
     (by decide) rfl).2,
   by with_unfolding_all rfl,
   by with_unfolding_all rfl⟩

/-! ## Claim C3: parameter validation -/

/-- **C3** (corrected).  The code performs no up-front parameter validation
and no `InvalidParameter` error exists.  What holds: an even (including
zero) blur kernel size makes the OpenCV blur call itself fail with
`cv2.error` (for the standalone blur and for illumination correction), and
a connectivity other than 4 or 8 makes `count_dots` fail with `cv2.error`;
but `alpha ≤ 0` is accepted — the contrast stage succeeds and stores a
buffer — and a negative `size_threshold` is accepted and counts every
non-background blob. -/
theorem claim_C3 :
    (∀ (k : ℕ) (img : Image), k % 2 = 0 → gaussianBlur k img = .error .cv2error) ∧
    (∀ (k : ℕ) (img : Image) (off : Option ℤ), k % 2 = 0 →
      correct_illumination img k off = .error .cv2error) ∧
    (∀ c : ℕ, c ≠ 4 → c ≠ 8 → ∀ (o p : Image) (st : ℤ),
      count_dots o p st (some c) = .error .cv2error) ∧
    (∀ (s : PipelineState) (img : Image) (a : ℚ), a ≤ 0 → s.filtered = some img →
      ProcessingPipeline.adjust_contrast s a
        = .ok { s with contrast := some (adjust_contrast img a) }) ∧
    (∀ (o p : Image) (st : ℤ) (c : ℕ), st < 0 →
      (countDotsCore o p st c).num_dots
        = (components (cvThreshold 127 p) c).length) := by
  refine ⟨?_, ?_, ?_, ?_, ?_⟩
  · intro k img hk
    unfold gaussianBlur
    rw [if_neg (by omega)]
  · intro k img off hk
    unfold correct_illumination
    rw [show gaussianBlur k img = .error .cv2error from by
      unfold gaussianBlur
      rw [if_neg (by omega)]]
    rfl
  · intro c hc4 hc8 o p st
    unfold count_dots
    rw [if_neg (by simp [hc4, hc8])]
  · intro s img a _ hf
    unfold ProcessingPipeline.adjust_contrast
    rw [hf]
  · intro o p st c hst
    obtain ⟨_, hnum⟩ := countDotsCore_accepted o p st c
    rw [hnum]
    rw [List.filter_eq_self.2 (fun b _ => decide_eq_true
      (le_of_lt (lt_of_lt_of_le hst (Int.ofNat_nonneg b.area))))]
    exact List.length_map _ _

/-- **C3 witness.**  Each branch at a concrete input: even kernel 4 fails,
connectivity 5 fails, `alpha = 0` succeeds, `size_threshold = -1` counts
every blob. -/
theorem claim_C3_witness :
    gaussianBlur 4 [[0]] = .error .cv2error ∧
    correct_illumination [[0]] 4 none = .error .cv2error ∧
    count_dots [[0]] [[0]] 0 (some 5) = .error .cv2error ∧
    ProcessingPipeline.adjust_contrast { initState with filtered := some [[5]] } 0
      = .ok { initState with filtered := some [[5]]
                             contrast := some (adjust_contrast [[5]] 0) } ∧
    (countDotsCore [[255]] [[255]] (-1) 4).num_dots
      = (components (cvThreshold 127 [[255]]) 4).length :=
  ⟨claim_C3.1 4 [[0]] rfl,
   claim_C3.2.1 4 [[0]] none rfl,
   claim_C3.2.2.1 5 (by decide) (by decide) [[0]] [[0]] 0,
   claim_C3.2.2.2.1 { initState with filtered := some [[5]] } [[5]] 0 le_rfl rfl,
   claim_C3.2.2.2.2 [[255]] [[255]] (-1) 4 (by decide)⟩

/-- **C3 counterexample.**  The claim says a call with `alpha ≤ 0` or
`size_threshold < 0` fails before any pixel work; in fact contrast
adjustment with `alpha = 0` succeeds and stores an output buffer, and
`count_dots` with `size_threshold = -1` succeeds and counts the blob. -/
theorem claim_C3_cex :
    ProcessingPipeline.adjust_contrast { initState with filtered := some [[5]] } 0
      = .ok { initState with filtered := some [[5]]
                             contrast := some ([[0]] : Image) } ∧
    (countDotsCore [[255]] [[255]] (-1) 4).num_dots = 1 := by
  constructor
  · with_unfolding_all rfl
  · with_unfolding_all rfl

/-! ## Marker drawing -/

lemma getD_range_map {α : Type} (n : ℕ) (f : ℕ → α) (y : ℕ) (d : α) :
    ((List.range n).map f).getD y d = if y < n then f y else d := by
  rcases lt_or_ge y n with h | h
  · rw [List.getD_eq_getElem?_getD, List.getElem?_map, List.getElem?_range h]
    simp [h]
  · rw [List.getD_eq_default]
    · rw [if_neg (Nat.not_lt.2 h)]
    · simpa using h

lemma drawRect_length (ci : ColorImage) (cx cy : ℤ) :
    (drawRect ci cx cy).length = ci.length := by
  unfold drawRect
  rw [List.length_map, List.length_range]

lemma drawRect_getD (ci : ColorImage) (cx cy : ℤ) (y : ℕ) :
    (drawRect ci cx cy).getD y []
      = if y < ci.length then
          (List.range ((ci.getD y []).length)).map (fun (x : ℕ) =>
            if cx - 1 ≤ (x : ℤ) ∧ (x : ℤ) ≤ cx + 1 ∧ cy - 1 ≤ (y : ℤ) ∧ (y : ℤ) ≤ cy + 1
            then (255, 0, 0) else colorPixel ci y x)
        else [] := by
  unfold drawRect
  exact getD_range_map ci.length _ y []

lemma drawRect_row_length (ci : ColorImage) (cx cy : ℤ) (y : ℕ) :
    ((drawRect ci cx cy).getD y []).length = (ci.getD y []).length := by
  rw [drawRect_getD]
  rcases lt_or_ge y ci.length with h | h
  · rw [if_pos h, List.length_map, List.length_range]
  · rw [if_neg (Nat.not_lt.2 h), List.getD_eq_default _ _ h]

lemma drawRect_pixel (ci : ColorImage) (cx cy : ℤ) (y x : ℕ)
    (hy : y < ci.length) (hx : x < (ci.getD y []).length) :
    colorPixel (drawRect ci cx cy) y x
      = if cx - 1 ≤ (x : ℤ) ∧ (x : ℤ) ≤ cx + 1 ∧ cy - 1 ≤ (y : ℤ) ∧ (y : ℤ) ≤ cy + 1
        then (255, 0, 0) else colorPixel ci y x := by
  show ((drawRect ci cx cy).getD y []).getD x (0, 0, 0) = _
  rw [drawRect_getD, if_pos hy, getD_range_map, if_pos hx]

/-- A 3×3 solid marker centred at `mk` is visible in the image: every
in-bounds pixel at Chebyshev distance at most 1 from `mk` carries the
marker colour. -/
def markedAt (ci : ColorImage) (mk : ℤ × ℤ) : Prop :=
  ∀ y x : ℕ, y < ci.length → x < (ci.getD y []).length →
    mk.1 - 1 ≤ (x : ℤ) → (x : ℤ) ≤ mk.1 + 1 →
    mk.2 - 1 ≤ (y : ℤ) → (y : ℤ) ≤ mk.2 + 1 →
    colorPixel ci y x = (255, 0, 0)

lemma markedAt_drawRect_self (ci : ColorImage) (cx cy : ℤ) :
    markedAt (drawRect ci cx cy) (cx, cy) := by
  intro y x hy hx h1 h2 h3 h4
  rw [drawRect_length] at hy
  rw [drawRect_row_length] at hx
  rw [drawRect_pixel ci cx cy y x hy hx, if_pos ⟨h1, h2, h3, h4⟩]

lemma markedAt_drawRect_mono (ci : ColorImage) (cx cy : ℤ) (mk : ℤ × ℤ)
    (h : markedAt ci mk) : markedAt (drawRect ci cx cy) mk := by
  intro y x hy hx h1 h2 h3 h4
  rw [drawRect_length] at hy
  rw [drawRect_row_length] at hx
  rw [drawRect_pixel ci cx cy y x hy hx]
  split
  · rfl
  · exact h y x hy hx h1 h2 h3 h4

lemma dotLoop_marked (st : ℤ) :
    ∀ (l : List (ℕ × CCStat)) (s : CountState),
      (∀ mk ∈ s.markers, markedAt s.count_image mk ∧ markedAt s.original_colored mk) →
      ∀ mk ∈ (dotLoop st l s).markers,
        markedAt (dotLoop st l s).count_image mk ∧
        markedAt (dotLoop st l s).original_colored mk
  | [], s, h => by simpa [dotLoop] using h
  | (i, stat) :: rest, s, h => by
    by_cases hi : i = 0
    · subst hi
      simpa [dotLoop] using dotLoop_marked st rest s h
    · by_cases hA : st ≤ (stat.area : ℤ)
      · have hstep : ∀ mk ∈ s.markers ++ [(pyInt stat.cx, pyInt stat.cy)],
            markedAt (drawRect s.count_image (pyInt stat.cx) (pyInt stat.cy)) mk ∧
            markedAt (drawRect s.original_colored (pyInt stat.cx) (pyInt stat.cy)) mk := by
          intro mk hmk
          rcases List.mem_append.1 hmk with hold | hnew
          · obtain ⟨hc, ho⟩ := h mk hold
            exact ⟨markedAt_drawRect_mono _ _ _ mk hc, markedAt_drawRect_mono _ _ _ mk ho⟩
          · have : mk = (pyInt stat.cx, pyInt stat.cy) := by simpa using hnew
            subst this
            exact ⟨markedAt_drawRect_self _ _ _, markedAt_drawRect_self _ _ _⟩
        simpa [dotLoop, hi, hA] using dotLoop_marked st rest
          { num_dots := s.num_dots + 1
            count_image := drawRect s.count_image (pyInt stat.cx) (pyInt stat.cy)
            original_colored := drawRect s.original_colored (pyInt stat.cx) (pyInt stat.cy)
            markers := s.markers ++ [(pyInt stat.cx, pyInt stat.cy)]
            acceptedCentroids := s.acceptedCentroids ++ [(stat.cx, stat.cy)] } hstep
      · simpa [dotLoop, hi, hA] using dotLoop_marked st rest s h

/-! ## Claim C9: marker placement -/

/-- **C9** (corrected).  The claim says the marker centre is the centroid
*rounded to nearest*; `int(...)` in fact truncates it.  What holds: every
marker centre is the componentwise truncation of an accepted blob's
centroid (in order), and the 3×3 marker around that truncated centre is
drawn on *both* output images. -/
theorem claim_C9 (o p : Image) (st : ℤ) (conn : Option ℕ) (r : CountState)
    (h : count_dots o p st conn = .ok r) :
    r.markers = r.acceptedCentroids.map (fun c => (pyInt c.1, pyInt c.2)) ∧
    ∀ mk ∈ r.markers, markedAt r.count_image mk ∧ markedAt r.original_colored mk := by
  rw [show count_dots o p st conn
      = (if conn.getD 4 = 4 ∨ conn.getD 4 = 8
          then Except.ok (countDotsCore o p st (conn.getD 4))
          else Except.error PyError.cv2error) from rfl] at h
  split at h
  case isFalse => exact absurd h (fun h => Except.noConfusion h)
  case isTrue hc =>
    have hr : r = countDotsCore o p st (conn.getD 4) := by
      cases h
      rfl
    subst hr
    constructor
    · obtain ⟨_, h2, h3⟩ := dotLoop_spec st (ccStats (cvThreshold 127 p) (conn.getD 4)).enum
        { num_dots := 0, count_image := gray2bgr p, original_colored := gray2bgr o
          markers := [], acceptedCentroids := [] }
      rw [show (countDotsCore o p st (conn.getD 4)).markers
          = (dotLoop st (ccStats (cvThreshold 127 p) (conn.getD 4)).enum
              { num_dots := 0, count_image := gray2bgr p, original_colored := gray2bgr o
                markers := [], acceptedCentroids := [] }).markers from rfl, h3]
      rw [show (countDotsCore o p st (conn.getD 4)).acceptedCentroids
          = (dotLoop st (ccStats (cvThreshold 127 p) (conn.getD 4)).enum
              { num_dots := 0, count_image := gray2bgr p, original_colored := gray2bgr o
                markers := [], acceptedCentroids := [] }).acceptedCentroids from rfl, h2]
      simp [List.map_map]
    · exact dotLoop_marked st (ccStats (cvThreshold 127 p) (conn.getD 4)).enum
        { num_dots := 0, count_image := gray2bgr p, original_colored := gray2bgr o
          markers := [], acceptedCentroids := [] } (by simp)

/-- **C9 witness.**  On a concrete image with one accepted blob, both
output images carry the marker colour at an in-bounds pixel of the 3×3 box
around the truncated centroid `(1, 0)`. -/
theorem claim_C9_witness :
    colorPixel (countDotsCore [[0, 255, 255, 0]] [[0, 255, 255, 0]] 1 4).count_image
      0 2 = (255, 0, 0) ∧
    colorPixel (countDotsCore [[0, 255, 255, 0]] [[0, 255, 255, 0]] 1 4).original_colored
      0 2 = (255, 0, 0) := by
  have h := (claim_C9 [[0, 255, 255, 0]] [[0, 255, 255, 0]] 1 (some 4)
    (countDotsCore [[0, 255, 255, 0]] [[0, 255, 255, 0]] 1 4) rfl).2
    (1, 0) (by with_unfolding_all decide)
  exact ⟨h.1 0 2 (by with_unfolding_all decide) (by with_unfolding_all decide)
      (by decide) (by decide) (by decide) (by decide),
    h.2 0 2 (by with_unfolding_all decide) (by with_unfolding_all decide)
      (by decide) (by decide) (by decide) (by decide)⟩

/-- **C9 counterexample.**  The accepted blob's centroid is `(3/2, 0)`,
whose nearest-integer x-coordinate is 2, so under the claim the marker box
would cover the pixel at `(x = 3, y = 0)`; the code truncates the centroid
to `(1, 0)` and that pixel stays unmarked (black) in the annotated
processed image. -/
theorem claim_C9_cex :
    (countDotsCore [[0, 255, 255, 0]] [[0, 255, 255, 0]] 1 4).acceptedCentroids
      = [(3/2, 0)] ∧
    rne (3/2) = 2 ∧
    (countDotsCore [[0, 255, 255, 0]] [[0, 255, 255, 0]] 1 4).markers = [(1, 0)] ∧
    colorPixel (countDotsCore [[0, 255, 255, 0]] [[0, 255, 255, 0]] 1 4).count_image
      0 3 = (0, 0, 0) ∧
    ((0, 0, 0) : ℕ × ℕ × ℕ) ≠ (255, 0, 0) := by
  refine ⟨by with_unfolding_all rfl, by with_unfolding_all rfl,
    by with_unfolding_all rfl, by with_unfolding_all rfl, by decide⟩

/-! ## Orchestrator stage lemmas -/

lemma except_map_ok {E A B : Type} {x : Except E A} {f : A → B} {b : B}
    (h : x.map f = .ok b) : ∃ a, x = .ok a ∧ b = f a := by
  cases x with
  | error e => exact absurd h (fun h => Except.noConfusion h)
  | ok a => exact ⟨a, rfl, (Except.ok.inj h).symm⟩

lemma correct_illumination_ok {s s' : PipelineState} {k : ℕ} {off : Option ℤ}
    (h : ProcessingPipeline.correct_illumination s k off = .ok s') :
    s'.original = s.original ∧ s'.filtered = s.filtered ∧ s'.contrast = s.contrast ∧
    s'.dots_counted = s.dots_counted ∧ s'.original_with_dots = s.original_with_dots ∧
    s'.dot_count = s.dot_count ∧ s'.centroids = s.centroids := by
  unfold ProcessingPipeline.correct_illumination at h
  cases ho : s.original with
  | none =>
    rw [ho] at h
    exact absurd h (fun h => Except.noConfusion h)
  | some img =>
    rw [ho] at h
    obtain ⟨c, _, rfl⟩ := except_map_ok h
    exact ⟨rfl, rfl, rfl, rfl, rfl, rfl, rfl⟩

lemma apply_filters_ok {s s' : PipelineState} {g t m : ℕ}
    (h : ProcessingPipeline.apply_filters s g t m = .ok s') :
    s'.original = s.original ∧ s'.corrected = s.corrected ∧ s'.contrast = s.contrast ∧
    s'.dots_counted = s.dots_counted ∧ s'.original_with_dots = s.original_with_dots ∧
    s'.dot_count = s.dot_count ∧ s'.centroids = s.centroids := by
  unfold ProcessingPipeline.apply_filters at h
  cases hc : s.corrected with
  | none =>
    rw [hc] at h
    exact absurd h (fun h => Except.noConfusion h)
  | some img =>
    rw [hc] at h
    obtain ⟨f, _, rfl⟩ := except_map_ok h
    exact ⟨rfl, rfl, rfl, rfl, rfl, rfl, rfl⟩

lemma adjust_contrast_ok {s s' : PipelineState} {a : ℚ}
    (h : ProcessingPipeline.adjust_contrast s a = .ok s') :
    s'.original = s.original ∧ s'.corrected = s.corrected ∧ s'.filtered = s.filtered ∧
    s'.dots_counted = s.dots_counted ∧ s'.original_with_dots = s.original_with_dots ∧
    s'.dot_count = s.dot_count ∧ s'.centroids = s.centroids := by
  unfold ProcessingPipeline.adjust_contrast at h
  cases hf : s.filtered with
  | none =>
    rw [hf] at h
    exact absurd h (fun h => Except.noConfusion h)
  | some img =>
    rw [hf] at h
    obtain rfl := (Except.ok.inj h).symm
    exact ⟨rfl, rfl, rfl, rfl, rfl, rfl, rfl⟩

lemma pipeline_count_dots_error (s : PipelineState) (st : ℤ) (conn : ℕ) :
    ∃ e, ProcessingPipeline.count_dots s st conn = .error e := by
  unfold ProcessingPipeline.count_dots
  cases ho : s.original with
  | none =>
    cases s.contrast <;> exact ⟨.cv2error, rfl⟩
  | some orig =>
    cases hc : s.contrast with
    | none => exact ⟨.cv2error, rfl⟩
    | some con =>
      dsimp only
      cases hm : count_dots orig con st (some conn) with
      | error e => exact ⟨e, rfl⟩
      | ok r => exact ⟨.valueError, rfl⟩

/-! ## Claim C10: the orchestrator's broken unpacking -/

/-- **C10** (confirmed).  `count_dots` returns a three-element tuple while
the orchestrator's `count_dots` binds four names to it, so whenever the
component returns normally the orchestrator method raises `ValueError`; the
method can never succeed, and therefore a `run_pipeline` invocation can
never complete successfully. -/
theorem claim_C10 :
    (∀ (s : PipelineState) (st : ℤ) (conn : ℕ) (o c : Image) (r : CountState),
      s.original = some o → s.contrast = some c →
      count_dots o c st (some conn) = .ok r →
      ProcessingPipeline.count_dots s st conn = .error .valueError) ∧
    (∀ (s : PipelineState) (st : ℤ) (conn : ℕ) (s' : PipelineState),
      ProcessingPipeline.count_dots s st conn ≠ .ok s') ∧
    (∀ (s : PipelineState) (loaded : Except PyError (Option Image))
      (k : ℕ) (off : ℤ) (g t m : ℕ) (a : ℚ) (st : ℤ) (conn : ℕ),
      (ProcessingPipeline.run_pipeline s loaded k off g t m a st conn).2 ≠ none) := by
  refine ⟨?_, ?_, ?_⟩
  · intro s st conn o c r ho hc hm
    unfold ProcessingPipeline.count_dots
    rw [ho, hc]
    dsimp only
    rw [hm]
    rfl
  · intro s st conn s' h
    obtain ⟨e, he⟩ := pipeline_count_dots_error s st conn
    rw [he] at h
    exact Except.noConfusion h
  · intro s loaded k off g t m a st conn
    unfold ProcessingPipeline.run_pipeline
    cases loaded with
    | error e => simp
    | ok img =>
      dsimp only
      cases h2 : ProcessingPipeline.correct_illumination
          (ProcessingPipeline.load_image_image s img) k (some off) with
      | error e => simp [h2]
      | ok s2 =>
        simp only [h2]
        cases h3 : ProcessingPipeline.apply_filters s2 g t m with
        | error e => simp [h3]
        | ok s3 =>
          simp only [h3]
          cases h4 : ProcessingPipeline.adjust_contrast s3 a with
          | error e => simp [h4]
          | ok s4 =>
            simp only [h4]
            obtain ⟨e, he⟩ := pipeline_count_dots_error s4 st conn
            simp [he]

/-- **C10 witness.**  A state in which the component call succeeds: the
orchestrator method still raises `ValueError`. -/
theorem claim_C10_witness :
    ProcessingPipeline.count_dots
      { initState with original := some [[255]], contrast := some [[255]] } 0 4
      = .error .valueError :=
  claim_C10.1 { initState with original := some [[255]], contrast := some [[255]] }
    0 4 [[255]] [[255]] (countDotsCore [[255]] [[255]] 0 4) rfl rfl rfl

/-! ## Claim C1: run_pipeline is not atomic -/

/-- **C1** (corrected).  The claim says a failing `run_pipeline` leaves the
whole stage mapping as it was before the run.  What holds is fail-fast with
*suffix* preservation only: when stage `i` raises (1 = load, 2 = illumination,
3 = filters, 4 = contrast, 5 = count dots), the entries belonging to stage
`i` and to every later stage keep their previous values, while entries
written by the stages that already succeeded in this run are overwritten. -/
theorem claim_C1 (s : PipelineState) (loaded : Except PyError (Option Image))
    (k : ℕ) (off : ℤ) (g t m : ℕ) (a : ℚ) (st : ℤ) (conn : ℕ)
    (i : ℕ) (e : PyError)
    (h : (ProcessingPipeline.run_pipeline s loaded k off g t m a st conn).2
      = some (i, e)) :
    (i ≤ 1 → (ProcessingPipeline.run_pipeline s loaded k off g t m a st conn).1.original
      = s.original) ∧
    (i ≤ 2 → (ProcessingPipeline.run_pipeline s loaded k off g t m a st conn).1.corrected
      = s.corrected) ∧
    (i ≤ 3 → (ProcessingPipeline.run_pipeline s loaded k off g t m a st conn).1.filtered
      = s.filtered) ∧
    (i ≤ 4 → (ProcessingPipeline.run_pipeline s loaded k off g t m a st conn).1.contrast
      = s.contrast) ∧
    ((ProcessingPipeline.run_pipeline s loaded k off g t m a st conn).1.dots_counted
        = s.dots_counted ∧
     (ProcessingPipeline.run_pipeline s loaded k off g t m a st conn).1.original_with_dots
        = s.original_with_dots ∧
     (ProcessingPipeline.run_pipeline s loaded k off g t m a st conn).1.dot_count
        = s.dot_count ∧
     (ProcessingPipeline.run_pipeline s loaded k off g t m a st conn).1.centroids
        = s.centroids) := by
  unfold ProcessingPipeline.run_pipeline at h ⊢
  cases loaded with
  | error e0 =>
    obtain ⟨hi, -⟩ : 1 = i ∧ e0 = e := by simpa using h
    subst hi
    exact ⟨fun _ => rfl, fun _ => rfl, fun _ => rfl, fun _ => rfl, rfl, rfl, rfl, rfl⟩
  | ok img =>
    dsimp only at h ⊢
    cases h2 : ProcessingPipeline.correct_illumination
        (ProcessingPipeline.load_image_image s img) k (some off) with
    | error e2 =>
      rw [h2] at h
      obtain ⟨hi, -⟩ : 2 = i ∧ e2 = e := by simpa using h
      subst hi
      exact ⟨fun hle => absurd hle (by omega), fun _ => rfl, fun _ => rfl,
        fun _ => rfl, rfl, rfl, rfl, rfl⟩
    | ok s2 =>
      rw [h2] at h
      dsimp only at h ⊢
      obtain ⟨-, hf2, hc2, hd2, how2, hn2, hz2⟩ := correct_illumination_ok h2
      cases h3 : ProcessingPipeline.apply_filters s2 g t m with
      | error e3 =>
        rw [h3] at h
        obtain ⟨hi, -⟩ : 3 = i ∧ e3 = e := by simpa using h
        subst hi
        exact ⟨fun hle => absurd hle (by omega), fun hle => absurd hle (by omega),
          fun _ => hf2, fun _ => hc2, hd2, how2, hn2, hz2⟩
      | ok s3 =>
        rw [h3] at h
        dsimp only at h ⊢
        obtain ⟨-, -, hc3, hd3, how3, hn3, hz3⟩ := apply_filters_ok h3
        cases h4 : ProcessingPipeline.adjust_contrast s3 a with
        | error e4 =>
          rw [h4] at h
          obtain ⟨hi, -⟩ : 4 = i ∧ e4 = e := by simpa using h
          subst hi
          exact ⟨fun hle => absurd hle (by omega), fun hle => absurd hle (by omega),
            fun hle => absurd hle (by omega), fun _ => hc3.trans hc2,
            hd3.trans hd2, how3.trans how2, hn3.trans hn2, hz3.trans hz2⟩
        | ok s4 =>
          rw [h4] at h
          dsimp only at h ⊢
          obtain ⟨-, -, -, hd4, how4, hn4, hz4⟩ := adjust_contrast_ok h4
          cases h5 : ProcessingPipeline.count_dots s4 st conn with
          | error e5 =>
            rw [h5] at h
            obtain ⟨hi, -⟩ : 5 = i ∧ e5 = e := by simpa using h
            subst hi
            exact ⟨fun hle => absurd hle (by omega), fun hle => absurd hle (by omega),
              fun hle => absurd hle (by omega), fun hle => absurd hle (by omega),
              (hd4.trans hd3).trans hd2, (how4.trans how3).trans how2,
              (hn4.trans hn3).trans hn2, (hz4.trans hz3).trans hz2⟩
          | ok s5 =>
            rw [h5] at h
            exact absurd h (by simp)

/-- **C1 witness.**  A concrete failing run (it fails at stage 5, the
orchestrator's broken dot-counting): the entries of the failing stage —
`dots_counted`, `original_with_dots`, `dot_count`, `centroids` — are
exactly as they were before the run. -/
theorem claim_C1_witness :
    (ProcessingPipeline.run_pipeline
      { initState with original := some [[7]], corrected := some [[7]] }
      (.ok (some [[0]])) 1 30 1 127 1 1 0 4).1.dots_counted
      = ({ initState with original := some [[7]], corrected := some [[7]] }
          : PipelineState).dots_counted ∧
    (ProcessingPipeline.run_pipeline
      { initState with original := some [[7]], corrected := some [[7]] }
      (.ok (some [[0]])) 1 30 1 127 1 1 0 4).1.dot_count
      = ({ initState with original := some [[7]], corrected := some [[7]] }
          : PipelineState).dot_count :=
  ⟨((claim_C1 { initState with original := some [[7]], corrected := some [[7]] }
      (.ok (some [[0]])) 1 30 1 127 1 1 0 4 5 .valueError rfl).2.2.2.2).1,
   ((claim_C1 { initState with original := some [[7]], corrected := some [[7]] }
      (.ok (some [[0]])) 1 30 1 127 1 1 0 4 5 .valueError rfl).2.2.2.2).2.2.1⟩

/-- **C1 counterexample.**  A run that fails (at stage 5) nevertheless
overwrites the `original` entry left by the previous run — the stage
mapping is *not* left as it was before the run. -/
theorem claim_C1_cex :
    (ProcessingPipeline.run_pipeline
      { initState with original := some [[7]], corrected := some [[7]] }
      (.ok (some [[0]])) 1 30 1 127 1 1 0 4).2 = some (5, .valueError) ∧
    (ProcessingPipeline.run_pipeline
      { initState with original := some [[7]], corrected := some [[7]] }
      (.ok (some [[0]])) 1 30 1 127 1 1 0 4).1.original = some [[0]] ∧
    some ([[0]] : Image) ≠ some ([[7]] : Image) :=
  ⟨rfl, rfl, by decide⟩

end CountyMC
